import Mathlib

/-!
# PleasePlay lambdas: a shallow embedding

Two request handlers are embedded here:

* `MusicNER.handler`  (`src/lambdas/musicner/main.go`), which drives a
  conversational backend through thread creation, message posting, run
  creation, run polling and message listing;
* `Search.handler`    (`src/lambdas/search/main.go`), which mints a signed
  token and performs one catalog search.

Everything that lives outside the repository (the HTTP transport, the JSON
codec, the environment, the clock, the signer) is an input of the embedding:
the transport is a script of exchange outcomes, the codec a family of
functions, the clock a pair of readings.  Strings stand for Go strings, `Int`
for Go `int`.  Every handler also returns the list of backend calls it issued,
which is how "makes no call" and "issues a fetch" are stated.
-/

set_option linter.unusedVariables false

/-- Substring containment on strings: `t` occurs somewhere inside `s`. -/
def Contains (s t : String) : Prop := t.data <:+: s.data

instance (s t : String) : Decidable (Contains s t) := by
  unfold Contains; infer_instance

/-- What happened to one HTTP round trip, from `http.NewRequest` to the
reading of the status line and the body. -/
inductive Exchange where
  /-- `http.NewRequest` returned an error. -/
  | requestFailed (err : String)
  /-- `client.Do` returned an error. -/
  | sendFailed (err : String)
  /-- The backend answered with a status code and a raw body. -/
  | answered (statusCode : Int) (body : String)
  deriving DecidableEq, Repr

namespace MusicNER

def openaiAPIBase : String := "https://api.openai.com/v1"
def assistantID : String := "asst_WBpwd1j6N1qN6WXUNVU2iCA5"

structure Thread where
  ID : String
  deriving DecidableEq, Repr

structure MessageRequest where
  Role : String
  Content : String
  deriving DecidableEq, Repr

structure RunRequest where
  AssistantID : String
  deriving DecidableEq, Repr

structure Run where
  ID : String
  Status : String
  deriving DecidableEq, Repr

structure Text where
  Value : String
  deriving DecidableEq, Repr

structure MessageContent where
  Text : Option Text
  deriving DecidableEq, Repr

structure Message where
  Role : String
  Content : List MessageContent
  deriving DecidableEq, Repr

structure MessageList where
  Data : List Message
  deriving DecidableEq, Repr

structure RequestBody where
  Query : String
  deriving DecidableEq, Repr

/-- The values the handler passes as `requestBodyData` (an `interface{}` in
the source): a message request or a run request. -/
inductive Payload where
  | message (m : MessageRequest)
  | run (r : RunRequest)
  deriving DecidableEq, Repr

/-- One round trip started by `makeOpenAIRequest`: the method and URL handed
to `http.NewRequest`, and how the round trip ended. -/
structure HttpCall where
  method : String
  url : String
  outcome : Exchange
  deriving DecidableEq, Repr

/-- What `makeOpenAIRequest` leaves behind: the returned error (`none` for
`nil`), the value behind `responseBody` afterwards, and the round trips it
started (none when marshalling the payload failed, one otherwise). -/
structure Outcome (α : Type) where
  err : Option String
  responseBody : Option α
  calls : List HttpCall

/-- Embedding of `makeOpenAIRequest` (main.go lines 62-101).

`marshal` is `json.Marshal`, `decode body target` is
`json.NewDecoder(body).Decode(target)`: it returns the error, if any, and the
value the target holds afterwards (Go decodes in place, so the old value is an
input).  `net` is the outcome of the round trip. -/
def makeOpenAIRequest {α : Type} (marshal : Payload → Except String String)
    (decode : String → α → Option String × α) (net : Exchange)
    (method url apiKey : String) (requestBodyData : Option Payload)
    (responseBody : Option α) : Outcome α :=
  match requestBodyData.map marshal with
  | some (.error e) => ⟨some ("error marshalling request body: " ++ e), responseBody, []⟩
  | _ =>
    let calls : List HttpCall := [⟨method, url, net⟩]
    match net with
    | .requestFailed e => ⟨some ("error creating request: " ++ e), responseBody, calls⟩
    | .sendFailed e => ⟨some ("error making request: " ++ e), responseBody, calls⟩
    | .answered statusCode body =>
      if statusCode < 200 ∨ statusCode ≥ 300 then
        ⟨some ("api request failed with status " ++ toString statusCode ++ ": " ++ body),
          responseBody, calls⟩
      else
        match responseBody with
        | some target =>
          match decode body target with
          | (some e, target') => ⟨some ("error decoding response body: " ++ e), some target', calls⟩
          | (none, target') => ⟨none, some target', calls⟩
        | none => ⟨none, none, calls⟩

/-- The five places where the handler calls `makeOpenAIRequest`. -/
inductive Step where
  | createThread
  | addMessage
  | createRun
  | retrieveRun
  | listMessages
  deriving DecidableEq, Repr

/-- A round trip together with the step of the handler that started it. -/
abbrev Call := Step × HttpCall

/-- Labels the round trips of one `makeOpenAIRequest` invocation with its step. -/
def tag (step : Step) (calls : List HttpCall) : List Call := calls.map (fun c => (step, c))

structure APIGatewayProxyRequest where
  Body : String
  deriving DecidableEq, Repr

structure APIGatewayProxyResponse where
  StatusCode : Int
  Body : String
  deriving DecidableEq, Repr

/-- Everything the handler takes from outside the repository during one
invocation: the environment variable, the JSON codec, and the outcome of each
backend round trip in the order the handler can ask for them
(`retrieveRun i` is the outcome of the `i`-th status fetch). -/
structure World where
  OPENAI_API_KEY : String
  unmarshalRequest : String → RequestBody → Option String × RequestBody
  marshal : Payload → Except String String
  decodeThread : String → Thread → Option String × Thread
  decodeRun : String → Run → Option String × Run
  decodeMessages : String → MessageList → Option String × MessageList
  createThread : Exchange
  addMessage : Exchange
  createRun : Exchange
  retrieveRun : Nat → Exchange
  listMessages : Exchange

/-- The loop condition of main.go line 139. -/
def polling (status : String) : Prop := status = "queued" ∨ status = "in_progress"

instance (status : String) : Decidable (polling status) := by
  unfold polling; infer_instance

/-- The URL of a status fetch (main.go line 141). -/
def runURL (thread : Thread) (run : Run) : String :=
  openaiAPIBase ++ "/threads/" ++ thread.ID ++ "/runs/" ++ run.ID

/-- The polling loop of the handler (main.go lines 139-144).  `fuel` bounds the
number of iterations (the source loop has no bound; `none` means the bound was
reached while the status was still in the polling set), `i` counts the status
fetches issued so far.  The sleep between fetches is not modelled.  The result
is either the response returned from inside the loop or the run the loop ends
with, together with the round trips started. -/
def pollRun (w : World) (apiKey : String) (thread : Thread) :
    Nat → Nat → Run → Option (Except APIGatewayProxyResponse Run × List Call)
  | 0, _, run =>
    if polling run.Status then none else some (.ok run, [])
  | fuel + 1, i, run =>
    if polling run.Status then
      match makeOpenAIRequest w.marshal w.decodeRun (w.retrieveRun i) "GET"
          (runURL thread run) apiKey none (some run) with
      | ⟨some err, _, calls⟩ =>
        some (.error ⟨500, "Error retrieving run: " ++ err⟩, tag .retrieveRun calls)
      | ⟨none, target, calls⟩ =>
        match pollRun w apiKey thread fuel (i + 1) (target.getD run) with
        | none => none
        | some (res, more) => some (res, tag .retrieveRun calls ++ more)
    else some (.ok run, [])

/-- The scan for the assistant's reply (main.go lines 157-164): the first
message whose role is "assistant", whose content is non-empty and whose first
content element has a text gives the result; the empty string otherwise. -/
def assistantResponse : List Message → String
  | [] => ""
  | msg :: rest =>
    if msg.Role = "assistant" then
      match msg.Content with
      | ⟨some text⟩ :: _ => text.Value
      | _ => assistantResponse rest
    else assistantResponse rest

/-- The part of the handler after the polling loop (main.go lines 146-166),
given the thread, the run the loop ended with and the round trips so far. -/
def finish (w : World) (apiKey : String) (thread : Thread) (run : Run) (sofar : List Call) :
    APIGatewayProxyResponse × List Call :=
  if run.Status ≠ "completed" then
    (⟨500, "Run finished with status: " ++ run.Status⟩, sofar)
  else
    -- 5. Get Messages
    match makeOpenAIRequest w.marshal w.decodeMessages w.listMessages "GET"
        (openaiAPIBase ++ "/threads/" ++ thread.ID ++ "/messages") apiKey none
        (some (⟨[]⟩ : MessageList)) with
    | ⟨some err, _, calls⟩ =>
      (⟨500, "Error listing messages: " ++ err⟩, sofar ++ tag .listMessages calls)
    | ⟨none, messages, calls⟩ =>
      (⟨200, assistantResponse (messages.getD ⟨[]⟩).Data⟩, sofar ++ tag .listMessages calls)

/-- Embedding of `handler` (main.go lines 103-167).  The result is the
response together with the round trips started, in order; `none` only when
the polling loop exhausts `fuel`. -/
def handler (fuel : Nat) (w : World) (request : APIGatewayProxyRequest) :
    Option (APIGatewayProxyResponse × List Call) :=
  let apiKey := w.OPENAI_API_KEY
  if apiKey = "" then
    some (⟨500, "OPENAI_API_KEY environment variable not set"⟩, [])
  else
    match w.unmarshalRequest request.Body ⟨""⟩ with
    | (some _, _) => some (⟨400, "Invalid request body"⟩, [])
    | (none, reqBody) =>
      if reqBody.Query = "" then
        some (⟨400, "Query not found in request body"⟩, [])
      else
        -- 1. Create a Thread
        match makeOpenAIRequest w.marshal w.decodeThread w.createThread "POST"
            (openaiAPIBase ++ "/threads") apiKey none (some (⟨""⟩ : Thread)) with
        | ⟨some err, _, calls1⟩ =>
          some (⟨500, "Error creating thread: " ++ err⟩, tag .createThread calls1)
        | ⟨none, threadTarget, calls1⟩ =>
          let thread : Thread := threadTarget.getD ⟨""⟩
          -- 2. Add a Message
          match makeOpenAIRequest w.marshal (fun _ (u : Unit) => (none, u)) w.addMessage "POST"
              (openaiAPIBase ++ "/threads/" ++ thread.ID ++ "/messages") apiKey
              (some (.message ⟨"user", reqBody.Query⟩)) none with
          | ⟨some err, _, calls2⟩ =>
            some (⟨500, "Error creating message: " ++ err⟩,
              tag .createThread calls1 ++ tag .addMessage calls2)
          | ⟨none, _, calls2⟩ =>
            -- 3. Create a Run
            match makeOpenAIRequest w.marshal w.decodeRun w.createRun "POST"
                (openaiAPIBase ++ "/threads/" ++ thread.ID ++ "/runs") apiKey
                (some (.run ⟨assistantID⟩)) (some (⟨"", ""⟩ : Run)) with
            | ⟨some err, _, calls3⟩ =>
              some (⟨500, "Error creating run: " ++ err⟩,
                tag .createThread calls1 ++ tag .addMessage calls2 ++ tag .createRun calls3)
            | ⟨none, runTarget, calls3⟩ =>
              let sofar := tag .createThread calls1 ++ tag .addMessage calls2 ++
                tag .createRun calls3
              -- 4. Wait for Run to complete
              match pollRun w apiKey thread fuel 0 (runTarget.getD ⟨"", ""⟩) with
              | none => none
              | some (.error resp, polls) => some (resp, sofar ++ polls)
              | some (.ok run, polls) => some (finish w apiKey thread run (sofar ++ polls))

/-- The status fetches among a list of round trips. -/
def statusFetches (calls : List Call) : Nat :=
  (calls.filter (fun c => c.1 = Step.retrieveRun)).length

/-- The round trip `net` was answered with a status in [200,300) and its body
decoded without error, turning the target `old` into `new`. -/
def Succeeds {α : Type} (decode : String → α → Option String × α) (net : Exchange)
    (old new : α) : Prop :=
  match net with
  | .answered c b => 200 ≤ c ∧ c < 300 ∧ decode b old = (none, new)
  | _ => False

instance {α : Type} [DecidableEq α] (decode : String → α → Option String × α) (net : Exchange)
    (old new : α) : Decidable (Succeeds decode net old new) := by
  unfold Succeeds; split <;> infer_instance

/-- The round trip `net` was answered with a status in [200,300). -/
def Accepted (net : Exchange) : Prop :=
  match net with
  | .answered c _ => 200 ≤ c ∧ c < 300
  | _ => False

instance (net : Exchange) : Decidable (Accepted net) := by
  unfold Accepted; split <;> infer_instance

/-- The configuration is present, the request carries the non-empty query, and
thread creation, message posting and run creation all succeed, giving `thread`
and the run `run0` as decoded from the run-creation response. -/
structure RunCreated (w : World) (request : APIGatewayProxyRequest) (thread : Thread)
    (run0 : Run) : Prop where
  key : w.OPENAI_API_KEY ≠ ""
  query : ∃ q, w.unmarshalRequest request.Body ⟨""⟩ = (none, ⟨q⟩) ∧ q ≠ "" ∧
    ∃ j, w.marshal (.message ⟨"user", q⟩) = .ok j
  thread : Succeeds w.decodeThread w.createThread ⟨""⟩ thread
  message : Accepted w.addMessage
  runReq : ∃ j, w.marshal (.run ⟨assistantID⟩) = .ok j
  run : Succeeds w.decodeRun w.createRun ⟨"", ""⟩ run0

/-- The first `n` status fetches succeed: `r 0` is the run as created, `r (i+1)`
the run after the `i`-th fetch; the statuses `r 0, ..., r (n-1)` are in the
polling set and `r n` is the first that is not. -/
structure Polled (w : World) (r : Nat → Run) (n : Nat) : Prop where
  fetch : ∀ i, i < n → Succeeds w.decodeRun (w.retrieveRun i) (r i) (r (i + 1))
  wait : ∀ i, i < n → polling (r i).Status
  stop : ¬ polling (r n).Status

/-- The handler reaches one of its five backend calls, every earlier call
having succeeded, and that call is answered with status `c` and body `b`.  The
index is the number of loop iterations the handler needs to get there. -/
inductive FailsAt (w : World) (request : APIGatewayProxyRequest) (c : Int) (b : String) :
    Nat → Prop where
  | createThread (q : String) :
    w.OPENAI_API_KEY ≠ "" → w.unmarshalRequest request.Body ⟨""⟩ = (none, ⟨q⟩) → q ≠ "" →
    w.createThread = .answered c b → FailsAt w request c b 0
  | addMessage (q : String) (thread : Thread) (j : String) :
    w.OPENAI_API_KEY ≠ "" → w.unmarshalRequest request.Body ⟨""⟩ = (none, ⟨q⟩) → q ≠ "" →
    Succeeds w.decodeThread w.createThread ⟨""⟩ thread →
    w.marshal (.message ⟨"user", q⟩) = .ok j →
    w.addMessage = .answered c b → FailsAt w request c b 0
  | createRun (q : String) (thread : Thread) (j j2 : String) :
    w.OPENAI_API_KEY ≠ "" → w.unmarshalRequest request.Body ⟨""⟩ = (none, ⟨q⟩) → q ≠ "" →
    Succeeds w.decodeThread w.createThread ⟨""⟩ thread →
    w.marshal (.message ⟨"user", q⟩) = .ok j → Accepted w.addMessage →
    w.marshal (.run ⟨assistantID⟩) = .ok j2 →
    w.createRun = .answered c b → FailsAt w request c b 0
  | retrieveRun (thread : Thread) (r : Nat → Run) (n : Nat) :
    RunCreated w request thread (r 0) →
    (∀ i, i < n → Succeeds w.decodeRun (w.retrieveRun i) (r i) (r (i + 1))) →
    (∀ i, i ≤ n → polling (r i).Status) →
    w.retrieveRun n = .answered c b → FailsAt w request c b (n + 1)
  | listMessages (thread : Thread) (r : Nat → Run) (n : Nat) :
    RunCreated w request thread (r 0) → Polled w r n → (r n).Status = "completed" →
    w.listMessages = .answered c b → FailsAt w request c b n

/-- The runs seen by the handler in `sampleWorld s0 s1 ms`: `s0` as created,
`s1` after every fetch. -/
def sampleRuns (s0 s1 : String) : Nat → Run
  | 0 => ⟨"r1", s0⟩
  | _ + 1 => ⟨"r1", s1⟩

/-- The three round trips before the polling loop, when none of them fails. -/
def setupCalls (w : World) (thread : Thread) : List Call :=
  [(.createThread, ⟨"POST", openaiAPIBase ++ "/threads", w.createThread⟩),
   (.addMessage, ⟨"POST", openaiAPIBase ++ "/threads/" ++ thread.ID ++ "/messages", w.addMessage⟩),
   (.createRun, ⟨"POST", openaiAPIBase ++ "/threads/" ++ thread.ID ++ "/runs", w.createRun⟩)]

/-- The round trips of `n` status fetches, the first of them being fetch number
`i`, when the run before the `j`-th of them is `r j`. -/
def pollCalls (w : World) (thread : Thread) : (Nat → Run) → Nat → Nat → List Call
  | _, _, 0 => []
  | r, i, n + 1 =>
    (.retrieveRun, ⟨"GET", runURL thread (r 0), w.retrieveRun i⟩) ::
      pollCalls w thread (fun j => r (j + 1)) (i + 1) n

/-- A concrete codec and transport used to instantiate the theorems: the
backend answers every call with 200, the run is created with status `s0` and
every status fetch reports `s1`; decoding yields the given values. -/
def sampleWorld (s0 s1 : String) (ms : List Message) : World where
  OPENAI_API_KEY := "k"
  unmarshalRequest := fun body _ => (none, ⟨body⟩)
  marshal := fun _ => .ok "json"
  decodeThread := fun _ _ => (none, ⟨"t1"⟩)
  decodeRun := fun body _ => (none, ⟨"r1", body⟩)
  decodeMessages := fun _ _ => (none, ⟨ms⟩)
  createThread := .answered 200 ""
  addMessage := .answered 200 ""
  createRun := .answered 200 s0
  retrieveRun := fun _ => .answered 200 s1
  listMessages := .answered 200 ""

/-- The sample world with thread creation answered by a 503. -/
def failingWorld : World :=
  { sampleWorld "queued" "completed" [] with createThread := .answered 503 "down" }

end MusicNER

namespace Search

structure Artwork where
  URL : String
  deriving DecidableEq, Repr

structure Preview where
  URL : String
  deriving DecidableEq, Repr

structure Attributes where
  Name : String
  ArtistName : String
  AlbumName : String
  DurationInMillis : Int
  Artwork : Artwork
  Previews : List Preview
  deriving DecidableEq, Repr

structure Song where
  ID : String
  Attributes : Attributes
  deriving DecidableEq, Repr

structure Songs where
  Data : List Song
  deriving DecidableEq, Repr

structure Results where
  Songs : Songs
  deriving DecidableEq, Repr

structure AppleMusicResponse where
  Results : Results
  deriving DecidableEq, Repr

structure Track where
  ID : String
  Title : String
  Artist : String
  Album : String
  ArtworkURL : String
  Duration : Int
  PreviewURL : String
  deriving DecidableEq, Repr

/-- A Go slice as far as the handler can tell it apart: `none` is the nil
slice (the value of `var tracks []Track`), `some l` a non-nil slice. -/
abbrev Slice (α : Type) := Option (List α)

/-- The elements of a slice; the nil slice has none. -/
def Slice.toList {α : Type} (s : Slice α) : List α := s.getD []

/-- Go `append(s, x)`: the result is never nil. -/
def Slice.append {α : Type} (s : Slice α) (x : α) : Slice α := some (s.toList ++ [x])

/-- A clock reading (`time.Time`), as nanoseconds since the Unix epoch. -/
structure Time where
  nanos : Int
  deriving DecidableEq, Repr

/-- `time.Hour`, a duration in nanoseconds. -/
def Hour : Int := 3600 * 1000000000

/-- `Time.Add`. -/
def Time.Add (t : Time) (d : Int) : Time := ⟨t.nanos + d⟩

/-- `Time.Unix`: whole seconds since the epoch, rounded down. -/
def Time.Unix (t : Time) : Int := t.nanos / 1000000000

structure MapClaims where
  iss : String
  iat : Int
  exp : Int
  deriving DecidableEq, Repr

structure Token where
  Method : String
  Header : List (String × String)
  Claims : MapClaims
  deriving DecidableEq, Repr

/-- `jwt.NewWithClaims`: the header names the token type and the algorithm. -/
def NewWithClaims (method : String) (claims : MapClaims) : Token :=
  ⟨method, [("typ", "JWT"), ("alg", method)], claims⟩

/-- Assignment `token.Header[key] = value`. -/
def Token.setHeader (t : Token) (key value : String) : Token :=
  { t with Header := (t.Header.filter (fun kv => kv.1 ≠ key)) ++ [(key, value)] }

def SigningMethodES256 : String := "ES256"

/-- `json.Marshal` on a slice whose elements encode by `encodeElem`: the nil
slice encodes as the JSON value `null`, any other slice as a JSON array. -/
def jsonMarshal {α : Type} (encodeElem : α → Except String String) :
    Slice α → Except String String
  | none => .ok "null"
  | some l =>
    match l.mapM encodeElem with
    | .error e => .error e
    | .ok parts => .ok ("[" ++ ",".intercalate parts ++ "]")

structure APIGatewayV2HTTPRequest where
  QueryStringParameters : List (String × String)
  Body : String
  deriving DecidableEq, Repr

structure APIGatewayV2HTTPResponse where
  StatusCode : Int
  Headers : List (String × String)
  Body : String
  deriving DecidableEq, Repr

/-- Indexing a Go `map[string]string`: the empty string for a missing key. -/
def mapIndex (m : List (String × String)) (key : String) : String :=
  (m.lookup key).getD ""

/-- One invocation of `client.Do` by the handler. -/
structure Call where
  method : String
  url : String
  authorization : String
  outcome : Exchange
  deriving DecidableEq, Repr

/-- Everything the handler takes from outside the repository during one
invocation: the environment, the key parser and the signer, the clock
(`clock k` is the `k`-th reading of `time.Now()`), the query encoder
(`url.Values.Encode`), the outcome of the round trip and of `io.ReadAll`, and
the JSON codec. -/
structure World (Key : Type) where
  APPLE_MUSIC_PRIVATE_KEY : String
  APPLE_MUSIC_KEY_ID : String
  APPLE_MUSIC_TEAM_ID : String
  ParseECPrivateKeyFromPEM : String → Except String Key
  clock : Nat → Time
  SignedString : Token → Key → Except String String
  Encode : List (String × String) → String
  net : Exchange
  readAllErr : Option String
  unmarshal : String → AppleMusicResponse → Option String × AppleMusicResponse
  encodeTrack : Track → Except String String

/-- The claims and header the handler builds (main.go lines 62-68). -/
def mintToken (TEAM_ID KEY_ID : String) (clock : Nat → Time) : Token :=
  let token := NewWithClaims SigningMethodES256
    { iss := TEAM_ID
      iat := (clock 0).Unix
      exp := ((clock 1).Add (1 * Hour)).Unix }
  token.setHeader "kid" KEY_ID

/-- One iteration of the mapping loop (main.go lines 127-140): the track
appended for one hit. -/
def trackOf (song : Song) : Track :=
  let preview :=
    match song.Attributes.Previews with
    | [] => ""
    | p :: _ => p.URL
  { ID := song.ID
    Title := song.Attributes.Name
    Artist := song.Attributes.ArtistName
    Album := song.Attributes.AlbumName
    ArtworkURL := song.Attributes.Artwork.URL
    Duration := song.Attributes.DurationInMillis
    PreviewURL := preview }

/-- The mapping loop (main.go lines 125-141): starting from the nil slice,
one track is appended per hit, in the order of the hits. -/
def mapTracks (hits : List Song) : Slice Track :=
  hits.foldl (fun tracks song => tracks.append (trackOf song)) none

/-- Embedding of `handler` (main.go lines 48-153).  The result is the response
together with the invocations of `client.Do`. -/
def handler {Key : Type} (w : World Key) (request : APIGatewayV2HTTPRequest) :
    APIGatewayV2HTTPResponse × List Call :=
  let priv_key := w.APPLE_MUSIC_PRIVATE_KEY
  let KEY_ID := w.APPLE_MUSIC_KEY_ID
  let TEAM_ID := w.APPLE_MUSIC_TEAM_ID
  if priv_key = "" ∨ KEY_ID = "" ∨ TEAM_ID = "" then
    (⟨500, [], "Missing Apple Music environment variables"⟩, [])
  else
    match w.ParseECPrivateKeyFromPEM priv_key with
    | .error err => (⟨500, [], "Failed to parse private key: " ++ err⟩, [])
    | .ok block =>
      let token := mintToken TEAM_ID KEY_ID w.clock
      match w.SignedString token block with
      | .error err => (⟨500, [], "Failed to sign token: " ++ err⟩, [])
      | .ok tokenString =>
        let search_url := "https://api.music.apple.com/v1/catalog/us/search"
        let term := mapIndex request.QueryStringParameters "term"
        let term := if term = "" then request.Body else term
        let params := [("term", term), ("types", "songs"), ("limit", "5")]
        let reqURL := search_url ++ "?" ++ w.Encode params
        match w.net with
        | .requestFailed err => (⟨500, [], "Failed to create request: " ++ err⟩, [])
        | .sendFailed err =>
          (⟨500, [], "Failed to execute request: " ++ err⟩,
            [⟨"GET", reqURL, "Bearer " ++ tokenString, w.net⟩])
        | .answered statusCode body =>
          let calls : List Call := [⟨"GET", reqURL, "Bearer " ++ tokenString, w.net⟩]
          match w.readAllErr with
          | some err => (⟨500, [], "Failed to read response: " ++ err⟩, calls)
          | none =>
            if statusCode ≠ 200 then
              (⟨statusCode, [], body⟩, calls)
            else
              match w.unmarshal body ⟨⟨⟨[]⟩⟩⟩ with
              | (some err, _) =>
                (⟨500, [], "Failed to parse Apple Music response: " ++ err⟩, calls)
              | (none, amResp) =>
                let tracks := mapTracks amResp.Results.Songs.Data
                match jsonMarshal w.encodeTrack tracks with
                | .error err => (⟨500, [], "Failed to marshal results: " ++ err⟩, calls)
                | .ok respBody =>
                  (⟨200, [("Content-Type", "application/json")], respBody⟩, calls)

/-- A concrete environment used to instantiate the theorems: the key parses,
the clock reads `t0` then `t1`, the signer writes the issued-at and expiry
claims into the token string, the catalog round trip ends as `net`, and the
catalog response decodes to the hits `hits`. -/
def sampleWorld (net : Exchange) (hits : List Song) (t0 t1 : Int) : World Unit where
  APPLE_MUSIC_PRIVATE_KEY := "pem"
  APPLE_MUSIC_KEY_ID := "kid1"
  APPLE_MUSIC_TEAM_ID := "team1"
  ParseECPrivateKeyFromPEM := fun _ => .ok ()
  clock := fun k => if k = 0 then ⟨t0⟩ else ⟨t1⟩
  SignedString := fun t _ => .ok (toString t.Claims.iat ++ "." ++ toString t.Claims.exp)
  Encode := fun ps => "&".intercalate (ps.map (fun kv => kv.1 ++ "=" ++ kv.2))
  net := net
  readAllErr := none
  unmarshal := fun _ _ => (none, ⟨⟨⟨hits⟩⟩⟩)
  encodeTrack := fun t => .ok ("#" ++ t.ID)

/-- Two hits used to instantiate the theorems: one with two previews, one with
none. -/
def sampleHits : List Song :=
  [⟨"1", ⟨"N1", "A1", "L1", 1000, ⟨"art1"⟩, [⟨"p1"⟩, ⟨"p2"⟩]⟩⟩,
   ⟨"2", ⟨"N2", "A2", "L2", 2000, ⟨"art2"⟩, []⟩⟩]

end Search

namespace MusicNER

theorem contains_mid (p t q : String) : Contains (p ++ t ++ q) t := by
  unfold Contains
  exact ⟨p.data, q.data, by simp⟩

theorem contains_end (p t : String) : Contains (p ++ t) t := by
  unfold Contains
  exact ⟨p.data, [], by simp⟩

theorem contains_append_left (s t u : String) (h : Contains s t) : Contains (s ++ u) t := by
  unfold Contains at *
  obtain ⟨a, b, hab⟩ := h
  exact ⟨a, b ++ u.data, by simp [← hab]⟩

theorem contains_append_right (s t u : String) (h : Contains s t) : Contains (u ++ s) t := by
  unfold Contains at *
  obtain ⟨a, b, hab⟩ := h
  exact ⟨u.data ++ a, b, by simp [← hab]⟩

end MusicNER

namespace MusicNER

theorem succeeds_answered {α : Type} (decode : String → α → Option String × α) (net : Exchange)
    (old new : α) (h : Succeeds decode net old new) :
    ∃ c b, net = .answered c b ∧ 200 ≤ c ∧ c < 300 ∧ decode b old = (none, new) := by
  cases net with
  | requestFailed e => exact absurd h (by simp [Succeeds])
  | sendFailed e => exact absurd h (by simp [Succeeds])
  | answered c b =>
    simp only [Succeeds] at h
    exact ⟨c, b, rfl, h.1, h.2.1, h.2.2⟩

theorem accepted_answered (net : Exchange) (h : Accepted net) :
    ∃ c b, net = .answered c b ∧ 200 ≤ c ∧ c < 300 := by
  cases net with
  | requestFailed e => exact absurd h (by simp [Accepted])
  | sendFailed e => exact absurd h (by simp [Accepted])
  | answered c b =>
    simp only [Accepted] at h
    exact ⟨c, b, rfl, h.1, h.2⟩

theorem make_succeeds {α : Type} (marshal : Payload → Except String String)
    (decode : String → α → Option String × α) (net : Exchange) (method url apiKey : String)
    (p : Option Payload) (old new : α)
    (hp : ∀ x, p = some x → ∃ j, marshal x = .ok j) (h : Succeeds decode net old new) :
    makeOpenAIRequest marshal decode net method url apiKey p (some old)
      = ⟨none, some new, [⟨method, url, net⟩]⟩ := by
  obtain ⟨c, b, hnet, hlo, hhi, hdec⟩ := succeeds_answered decode net old new h
  have hc : ¬ (c < 200 ∨ c ≥ 300) := by omega
  unfold makeOpenAIRequest
  cases p with
  | none => simp [hnet, hc, hdec]
  | some x =>
    obtain ⟨j, hj⟩ := hp x rfl
    simp [hj, hnet, hc, hdec]

theorem make_accepted {α : Type} (marshal : Payload → Except String String)
    (decode : String → α → Option String × α) (net : Exchange) (method url apiKey : String)
    (p : Option Payload)
    (hp : ∀ x, p = some x → ∃ j, marshal x = .ok j) (h : Accepted net) :
    makeOpenAIRequest marshal decode net method url apiKey p none
      = ⟨none, none, [⟨method, url, net⟩]⟩ := by
  obtain ⟨c, b, hnet, hlo, hhi⟩ := accepted_answered net h
  have hc : ¬ (c < 200 ∨ c ≥ 300) := by omega
  unfold makeOpenAIRequest
  cases p with
  | none => simp [hnet, hc]
  | some x =>
    obtain ⟨j, hj⟩ := hp x rfl
    simp [hj, hnet, hc]

theorem pollRun_polled (w : World) (apiKey : String) (thread : Thread) :
    ∀ (n fuel i : Nat) (r : Nat → Run),
      (∀ j, j < n → Succeeds w.decodeRun (w.retrieveRun (i + j)) (r j) (r (j + 1))) →
      (∀ j, j < n → polling (r j).Status) → ¬ polling (r n).Status → n ≤ fuel →
      pollRun w apiKey thread fuel i (r 0) = some (.ok (r n), pollCalls w thread r i n) := by
  intro n
  induction n with
  | zero =>
    intro fuel i r _ _ hstop _
    cases fuel <;> simp [pollRun, pollCalls, hstop]
  | succ n ih =>
    intro fuel i r hfetch hwait hstop hfuel
    cases fuel with
    | zero => omega
    | succ fuel =>
      have h0 := hfetch 0 (by omega)
      have hw0 := hwait 0 (by omega)
      have hmk := make_succeeds w.marshal w.decodeRun (w.retrieveRun i) "GET"
        (runURL thread (r 0)) apiKey none (r 0) (r 1) (by simp) (by simpa using h0)
      have hrec := ih fuel (i + 1) (fun j => r (j + 1))
        (by intro j hj; have := hfetch (j + 1) (by omega); simpa [Nat.add_assoc, Nat.add_comm 1 j] using this)
        (by intro j hj; exact hwait (j + 1) (by omega))
        hstop (by omega)
      simp only [pollRun, hw0, if_true, hmk, Option.getD_some]
      simp only [Nat.zero_add] at hrec
      rw [hrec]
      simp [pollCalls, tag]

theorem statusFetches_append (a b : List Call) :
    statusFetches (a ++ b) = statusFetches a + statusFetches b := by
  simp [statusFetches]

theorem statusFetches_pollCalls (w : World) (thread : Thread) :
    ∀ (n i : Nat) (r : Nat → Run), statusFetches (pollCalls w thread r i n) = n := by
  intro n
  induction n with
  | zero => intro i r; simp [pollCalls, statusFetches]
  | succ n ih =>
    intro i r
    have := ih (i + 1) (fun j => r (j + 1))
    simp only [statusFetches] at this ⊢
    simp [pollCalls, this]

theorem step_of_mem_pollCalls (w : World) (thread : Thread) :
    ∀ (n i : Nat) (r : Nat → Run) (c : Call), c ∈ pollCalls w thread r i n →
      c.1 = Step.retrieveRun := by
  intro n
  induction n with
  | zero => intro i r c hc; simp [pollCalls] at hc
  | succ n ih =>
    intro i r c hc
    simp only [pollCalls, List.mem_cons] at hc
    rcases hc with rfl | hc
    · rfl
    · exact ih _ _ _ hc

/-- When everything up to run creation succeeds and the polling loop ends after
`n` fetches, the handler returns what `finish` returns for the last run. -/
theorem handler_polled (fuel : Nat) (w : World) (request : APIGatewayProxyRequest)
    (thread : Thread) (r : Nat → Run) (n : Nat)
    (hc : RunCreated w request thread (r 0)) (hp : Polled w r n) (hfuel : n ≤ fuel) :
    handler fuel w request
      = some (finish w w.OPENAI_API_KEY thread (r n)
          (setupCalls w thread ++ pollCalls w thread r 0 n)) := by
  obtain ⟨q, hq, hqne, hmq⟩ := hc.query
  have h1 := make_succeeds w.marshal w.decodeThread w.createThread "POST"
    (openaiAPIBase ++ "/threads") w.OPENAI_API_KEY none ⟨""⟩ thread (by simp) hc.thread
  have h2 := make_accepted w.marshal (fun _ (u : Unit) => (none, u)) w.addMessage "POST"
    (openaiAPIBase ++ "/threads/" ++ thread.ID ++ "/messages") w.OPENAI_API_KEY
    (some (.message ⟨"user", q⟩)) (by intro x hx; cases hx; exact hmq) hc.message
  have h3 := make_succeeds w.marshal w.decodeRun w.createRun "POST"
    (openaiAPIBase ++ "/threads/" ++ thread.ID ++ "/runs") w.OPENAI_API_KEY
    (some (.run ⟨assistantID⟩)) ⟨"", ""⟩ (r 0) (by intro x hx; cases hx; exact hc.runReq) hc.run
  have h4 := pollRun_polled w w.OPENAI_API_KEY thread n fuel 0 r
    (by intro j hj; simpa using hp.fetch j hj) hp.wait hp.stop hfuel
  simp only [handler, hc.key, if_false, hq, hqne, h1, Option.getD_some, h2, h3, h4]
  simp [setupCalls, tag]

theorem make_calls_none {α : Type} (marshal : Payload → Except String String)
    (decode : String → α → Option String × α) (net : Exchange) (method url apiKey : String)
    (responseBody : Option α) :
    (makeOpenAIRequest marshal decode net method url apiKey none responseBody).calls
      = [⟨method, url, net⟩] := by
  unfold makeOpenAIRequest
  simp only [Option.map_none']
  cases net with
  | requestFailed e => rfl
  | sendFailed e => rfl
  | answered c b =>
    simp only
    split
    · rfl
    · cases responseBody with
      | none => rfl
      | some t =>
        simp only
        split <;> rfl

theorem finish_calls (w : World) (apiKey : String) (thread : Thread) (run : Run)
    (sofar : List Call) :
    (run.Status ≠ "completed" → (finish w apiKey thread run sofar).2 = sofar) ∧
    (run.Status = "completed" → (finish w apiKey thread run sofar).2
      = sofar ++ [(Step.listMessages, ⟨"GET",
          openaiAPIBase ++ "/threads/" ++ thread.ID ++ "/messages", w.listMessages⟩)]) := by
  constructor
  · intro h
    simp [finish, h]
  · intro h
    have hcalls := make_calls_none w.marshal w.decodeMessages w.listMessages "GET"
      (openaiAPIBase ++ "/threads/" ++ thread.ID ++ "/messages") apiKey (some (⟨[]⟩ : MessageList))
    unfold finish
    simp only [h, ne_eq, not_true_eq_false, if_false]
    split
    · next err x calls heq =>
      rw [heq] at hcalls
      simp only at hcalls
      simp [hcalls, tag]
    · next x calls heq =>
      rw [heq] at hcalls
      simp only at hcalls
      simp [hcalls, tag]

theorem finish_completed (w : World) (apiKey : String) (thread : Thread) (run : Run)
    (sofar : List Call) (ms : List Message) (hdone : run.Status = "completed")
    (hms : Succeeds w.decodeMessages w.listMessages ⟨[]⟩ ⟨ms⟩) :
    (finish w apiKey thread run sofar).1 = ⟨200, assistantResponse ms⟩ := by
  have h := make_succeeds w.marshal w.decodeMessages w.listMessages "GET"
    (openaiAPIBase ++ "/threads/" ++ thread.ID ++ "/messages") apiKey none ⟨[]⟩ ⟨ms⟩
    (by simp) hms
  simp [finish, hdone, h]

theorem statusFetches_setupCalls (w : World) (thread : Thread) :
    statusFetches (setupCalls w thread) = 0 := by
  simp [statusFetches, setupCalls]

theorem assistantResponse_first :
    ∀ (front : List Message) (m : Message) (back : List Message) (t : Text)
      (rest : List MessageContent),
      (∀ x ∈ front, ¬ (x.Role = "assistant" ∧ ∃ u tl, x.Content = ⟨some u⟩ :: tl)) →
      m.Role = "assistant" → m.Content = ⟨some t⟩ :: rest →
      assistantResponse (front ++ m :: back) = t.Value := by
  intro front
  induction front with
  | nil =>
    intro m back t rest _ hrole hcontent
    simp [assistantResponse, hrole, hcontent]
  | cons x xs ih =>
    intro m back t rest hfront hrole hcontent
    have hx := hfront x (List.mem_cons_self _ _)
    have hrec := ih m back t rest (fun y hy => hfront y (List.mem_cons_of_mem _ hy)) hrole hcontent
    simp only [List.cons_append, assistantResponse]
    by_cases hr : x.Role = "assistant"
    · simp only [hr, if_true]
      split
      · next u tl heq => exact absurd ⟨hr, u, tl, heq⟩ hx
      · exact hrec
    · simp only [hr, if_false]
      exact hrec

theorem assistantResponse_none :
    ∀ (ms : List Message),
      (∀ m ∈ ms, ¬ (m.Role = "assistant" ∧ ∃ c ∈ m.Content, c.Text ≠ none)) →
      assistantResponse ms = "" := by
  intro ms
  induction ms with
  | nil => intro _; rfl
  | cons x xs ih =>
    intro h
    have hx := h x (List.mem_cons_self _ _)
    have hrec := ih (fun y hy => h y (List.mem_cons_of_mem _ hy))
    simp only [assistantResponse]
    by_cases hr : x.Role = "assistant"
    · simp only [hr, if_true]
      split
      · next u tl heq =>
        exact absurd ⟨hr, ⟨some u⟩, by simp [heq], by simp⟩ hx
      · exact hrec
    · simp only [hr, if_false]
      exact hrec

theorem sample_created (s0 s1 : String) (ms : List Message) :
    RunCreated (sampleWorld s0 s1 ms) ⟨"hello"⟩ ⟨"t1"⟩ (sampleRuns s0 s1 0) where
  key := by simp [sampleWorld]
  query := ⟨"hello", rfl, by decide, "json", rfl⟩
  thread := by simp [Succeeds, sampleWorld]
  message := by simp [Accepted, sampleWorld]
  runReq := ⟨"json", rfl⟩
  run := by simp [Succeeds, sampleWorld, sampleRuns]

theorem sample_polled_one (s1 : String) (ms : List Message) (h : ¬ polling s1) :
    Polled (sampleWorld "queued" s1 ms) (sampleRuns "queued" s1) 1 where
  fetch := by
    intro i hi
    have : i = 0 := by omega
    subst this
    simp [Succeeds, sampleWorld, sampleRuns]
  wait := by
    intro i hi
    have : i = 0 := by omega
    subst this
    exact Or.inl rfl
  stop := h

/-- C1, as stated, fails: when run creation already reports a status outside
the polling set (here "completed"), every backend call succeeds, the handler
returns, and it has issued no status fetch at all. -/
theorem handler_no_fetch_counterexample :
    ∃ resp calls,
      handler 1 (sampleWorld "completed" "completed" []) ⟨"hello"⟩ = some (resp, calls) ∧
      (∀ c ∈ calls, Accepted c.2.outcome) ∧
      resp.StatusCode = 200 ∧
      statusFetches calls = 0 :=
  ⟨_, _, rfl, by decide, rfl, rfl⟩

/-- C1, amended.  Let `r 0` be the run returned by run creation and `r (i+1)`
the run returned by the `i`-th status fetch, all backend calls succeeding, and
let `r n` be the first of them whose status is outside the polling set.  Then
the handler returns and has issued exactly `n` status fetches: none after the
first status outside the polling set, and at least one exactly when the status
returned by run creation is in the polling set. -/
theorem handler_status_fetches (fuel : Nat) (w : World) (request : APIGatewayProxyRequest)
    (thread : Thread) (r : Nat → Run) (n : Nat)
    (hc : RunCreated w request thread (r 0)) (hp : Polled w r n) (hfuel : n ≤ fuel) :
    ∃ resp calls, handler fuel w request = some (resp, calls) ∧
      statusFetches calls = n ∧
      (1 ≤ statusFetches calls ↔ polling (r 0).Status) := by
  have hcount : statusFetches (finish w w.OPENAI_API_KEY thread (r n)
      (setupCalls w thread ++ pollCalls w thread r 0 n)).2 = n := by
    have hf := finish_calls w w.OPENAI_API_KEY thread (r n)
      (setupCalls w thread ++ pollCalls w thread r 0 n)
    by_cases hs : (r n).Status = "completed"
    · rw [hf.2 hs]
      simp only [statusFetches_append, statusFetches_setupCalls, statusFetches_pollCalls]
      simp [statusFetches]
    · rw [hf.1 hs]
      simp only [statusFetches_append, statusFetches_setupCalls, statusFetches_pollCalls]
      simp
  refine ⟨(finish w w.OPENAI_API_KEY thread (r n)
      (setupCalls w thread ++ pollCalls w thread r 0 n)).1,
    (finish w w.OPENAI_API_KEY thread (r n)
      (setupCalls w thread ++ pollCalls w thread r 0 n)).2,
    handler_polled fuel w request thread r n hc hp hfuel, hcount, ?_⟩
  rw [hcount]
  constructor
  · intro h
    exact hp.wait 0 (by omega)
  · intro h
    cases n with
    | zero => exact absurd h hp.stop
    | succ k => omega

theorem handler_status_fetches_witness :
    RunCreated (sampleWorld "queued" "failed" []) ⟨"hello"⟩ ⟨"t1"⟩ (sampleRuns "queued" "failed" 0) ∧
    Polled (sampleWorld "queued" "failed" []) (sampleRuns "queued" "failed") 1 ∧
    ∃ resp calls, handler 1 (sampleWorld "queued" "failed" []) ⟨"hello"⟩ = some (resp, calls) ∧
      statusFetches calls = 1 ∧
      (1 ≤ statusFetches calls ↔ polling (sampleRuns "queued" "failed" 0).Status) :=
  ⟨sample_created _ _ _, sample_polled_one _ _ (by decide),
    handler_status_fetches 1 (sampleWorld "queued" "failed" []) ⟨"hello"⟩ ⟨"t1"⟩
      (sampleRuns "queued" "failed") 1 (sample_created _ _ _)
      (sample_polled_one _ _ (by decide)) (by decide)⟩

/-- C2.  When everything up to run creation succeeds and polling ends with the
run status `s` (the first status outside the polling set), the handler returns;
it calls the message list if and only if `s` is exactly "completed"; for every
other `s` the response is HTTP 500 with a body containing `s`, no message-list
call is made and exactly one run was created. -/
theorem handler_terminal_status (fuel : Nat) (w : World) (request : APIGatewayProxyRequest)
    (thread : Thread) (r : Nat → Run) (n : Nat)
    (hc : RunCreated w request thread (r 0)) (hp : Polled w r n) (hfuel : n ≤ fuel) :
    ∃ resp calls, handler fuel w request = some (resp, calls) ∧
      ((∃ c ∈ calls, c.1 = Step.listMessages) ↔ (r n).Status = "completed") ∧
      ((r n).Status ≠ "completed" →
        resp.StatusCode = 500 ∧ Contains resp.Body (r n).Status ∧
        (∀ c ∈ calls, c.1 ≠ Step.listMessages) ∧
        (calls.filter (fun c => c.1 = Step.createRun)).length = 1) := by
  refine ⟨(finish w w.OPENAI_API_KEY thread (r n)
      (setupCalls w thread ++ pollCalls w thread r 0 n)).1,
    (finish w w.OPENAI_API_KEY thread (r n)
      (setupCalls w thread ++ pollCalls w thread r 0 n)).2,
    handler_polled fuel w request thread r n hc hp hfuel, ?_, ?_⟩
  · have hf := finish_calls w w.OPENAI_API_KEY thread (r n)
      (setupCalls w thread ++ pollCalls w thread r 0 n)
    constructor
    · rintro ⟨c, hmem, hstep⟩
      by_contra hs
      rw [hf.1 hs] at hmem
      rcases List.mem_append.mp hmem with hm | hm
      · simp only [setupCalls, List.mem_cons, List.mem_singleton, List.not_mem_nil,
          or_false] at hm
        rcases hm with rfl | rfl | rfl <;> simp at hstep
      · have := step_of_mem_pollCalls w thread n 0 r c hm
        rw [this] at hstep
        simp at hstep
    · intro hs
      rw [hf.2 hs]
      exact ⟨_, List.mem_append_right _ (List.mem_singleton_self _), rfl⟩
  · intro hs
    have hf := (finish_calls w w.OPENAI_API_KEY thread (r n)
      (setupCalls w thread ++ pollCalls w thread r 0 n)).1 hs
    have hresp : (finish w w.OPENAI_API_KEY thread (r n)
        (setupCalls w thread ++ pollCalls w thread r 0 n)).1
        = ⟨500, "Run finished with status: " ++ (r n).Status⟩ := by
      simp [finish, hs]
    rw [hresp, hf]
    refine ⟨rfl, contains_end _ _, ?_, ?_⟩
    · intro c hmem hstep
      rcases List.mem_append.mp hmem with hm | hm
      · simp only [setupCalls, List.mem_cons, List.mem_singleton, List.not_mem_nil,
          or_false] at hm
        rcases hm with rfl | rfl | rfl <;> simp at hstep
      · have := step_of_mem_pollCalls w thread n 0 r c hm
        rw [this] at hstep
        simp at hstep
    · rw [List.filter_append]
      have hnone : (pollCalls w thread r 0 n).filter (fun c => c.1 = Step.createRun) = [] := by
        rw [List.filter_eq_nil_iff]
        intro c hm
        have := step_of_mem_pollCalls w thread n 0 r c hm
        simp [this]
      rw [hnone]
      simp [setupCalls]

theorem handler_terminal_status_witness :
    RunCreated (sampleWorld "queued" "failed" []) ⟨"hello"⟩ ⟨"t1"⟩ (sampleRuns "queued" "failed" 0) ∧
    Polled (sampleWorld "queued" "failed" []) (sampleRuns "queued" "failed") 1 ∧
    ∃ resp calls, handler 1 (sampleWorld "queued" "failed" []) ⟨"hello"⟩ = some (resp, calls) ∧
      ((∃ c ∈ calls, c.1 = Step.listMessages) ↔
        (sampleRuns "queued" "failed" 1).Status = "completed") ∧
      ((sampleRuns "queued" "failed" 1).Status ≠ "completed" →
        resp.StatusCode = 500 ∧ Contains resp.Body (sampleRuns "queued" "failed" 1).Status ∧
        (∀ c ∈ calls, c.1 ≠ Step.listMessages) ∧
        (calls.filter (fun c => c.1 = Step.createRun)).length = 1) :=
  ⟨sample_created _ _ _, sample_polled_one _ _ (by decide),
    handler_terminal_status 1 (sampleWorld "queued" "failed" []) ⟨"hello"⟩ ⟨"t1"⟩
      (sampleRuns "queued" "failed") 1 (sample_created _ _ _)
      (sample_polled_one _ _ (by decide)) (by decide)⟩

/-- C3, as stated, fails: the newest message is from the assistant and carries
the text "A" as its second content element (the first element has no text), the
run completes and every call succeeds, yet the returned body is empty, not "A". -/
theorem handler_text_not_first_counterexample :
    (∃ c ∈ [(⟨none⟩ : MessageContent), ⟨some ⟨"A"⟩⟩], c.Text = some ⟨"A"⟩) ∧
    (handler 1 (sampleWorld "queued" "completed" [⟨"assistant", [⟨none⟩, ⟨some ⟨"A"⟩⟩]⟩])
        ⟨"hello"⟩).map (fun p => p.1) = some ⟨200, ""⟩ ∧
    (handler 1 (sampleWorld "queued" "completed"
        [⟨"assistant", [⟨none⟩, ⟨some ⟨"A"⟩⟩]⟩, ⟨"assistant", [⟨some ⟨"B"⟩⟩]⟩])
        ⟨"hello"⟩).map (fun p => p.1) = some ⟨200, "B"⟩ :=
  ⟨by decide, by decide, by decide⟩

/-- C3, amended.  When every call succeeds and the run completes, the returned
body is the text of the first content element of the first message in the
(newest-first) list whose role is "assistant" and whose first content element
is text-bearing, and the status is 200. -/
theorem handler_returns_first_text (fuel : Nat) (w : World) (request : APIGatewayProxyRequest)
    (thread : Thread) (r : Nat → Run) (n : Nat)
    (front : List Message) (m : Message) (back : List Message) (t : Text)
    (rest : List MessageContent)
    (hc : RunCreated w request thread (r 0)) (hp : Polled w r n) (hfuel : n ≤ fuel)
    (hdone : (r n).Status = "completed")
    (hms : Succeeds w.decodeMessages w.listMessages ⟨[]⟩ ⟨front ++ m :: back⟩)
    (hfront : ∀ x ∈ front, ¬ (x.Role = "assistant" ∧ ∃ u tl, x.Content = ⟨some u⟩ :: tl))
    (hrole : m.Role = "assistant") (hcontent : m.Content = ⟨some t⟩ :: rest) :
    ∃ calls, handler fuel w request = some (⟨200, t.Value⟩, calls) := by
  refine ⟨(finish w w.OPENAI_API_KEY thread (r n)
    (setupCalls w thread ++ pollCalls w thread r 0 n)).2, ?_⟩
  rw [handler_polled fuel w request thread r n hc hp hfuel]
  have h := finish_completed w w.OPENAI_API_KEY thread (r n)
    (setupCalls w thread ++ pollCalls w thread r 0 n) _ hdone hms
  rw [assistantResponse_first front m back t rest hfront hrole hcontent] at h
  rw [← h]

theorem handler_returns_first_text_witness :
    ∃ calls, handler 1
      (sampleWorld "queued" "completed"
        [⟨"user", [⟨some ⟨"U"⟩⟩]⟩, ⟨"assistant", [⟨some ⟨"A"⟩⟩, ⟨none⟩]⟩, ⟨"assistant", []⟩])
      ⟨"hello"⟩ = some (⟨200, "A"⟩, calls) :=
  handler_returns_first_text 1
    (sampleWorld "queued" "completed"
      [⟨"user", [⟨some ⟨"U"⟩⟩]⟩, ⟨"assistant", [⟨some ⟨"A"⟩⟩, ⟨none⟩]⟩, ⟨"assistant", []⟩])
    ⟨"hello"⟩ ⟨"t1"⟩ (sampleRuns "queued" "completed") 1
    [⟨"user", [⟨some ⟨"U"⟩⟩]⟩] ⟨"assistant", [⟨some ⟨"A"⟩⟩, ⟨none⟩]⟩ [⟨"assistant", []⟩] ⟨"A"⟩ [⟨none⟩]
    (sample_created _ _ _) (sample_polled_one _ _ (by decide)) (by decide) rfl
    (by decide) (by simp) rfl rfl

/-- C10.  When every call succeeds, the run completes, and the message list
(the empty list included) holds no message with role "assistant" and a
text-bearing content element, the handler returns status 200 with an empty
body. -/
theorem handler_no_answer (fuel : Nat) (w : World) (request : APIGatewayProxyRequest)
    (thread : Thread) (r : Nat → Run) (n : Nat) (ms : List Message)
    (hc : RunCreated w request thread (r 0)) (hp : Polled w r n) (hfuel : n ≤ fuel)
    (hdone : (r n).Status = "completed")
    (hms : Succeeds w.decodeMessages w.listMessages ⟨[]⟩ ⟨ms⟩)
    (hnone : ∀ m ∈ ms, ¬ (m.Role = "assistant" ∧ ∃ c ∈ m.Content, c.Text ≠ none)) :
    ∃ calls, handler fuel w request = some (⟨200, ""⟩, calls) := by
  refine ⟨(finish w w.OPENAI_API_KEY thread (r n)
    (setupCalls w thread ++ pollCalls w thread r 0 n)).2, ?_⟩
  rw [handler_polled fuel w request thread r n hc hp hfuel]
  have h := finish_completed w w.OPENAI_API_KEY thread (r n)
    (setupCalls w thread ++ pollCalls w thread r 0 n) _ hdone hms
  rw [assistantResponse_none ms hnone] at h
  rw [← h]

theorem handler_no_answer_witness :
    ∃ calls, handler 1
      (sampleWorld "queued" "completed" [⟨"user", [⟨some ⟨"U"⟩⟩]⟩, ⟨"assistant", [⟨none⟩]⟩])
      ⟨"hello"⟩ = some (⟨200, ""⟩, calls) :=
  handler_no_answer 1
    (sampleWorld "queued" "completed" [⟨"user", [⟨some ⟨"U"⟩⟩]⟩, ⟨"assistant", [⟨none⟩]⟩])
    ⟨"hello"⟩ ⟨"t1"⟩ (sampleRuns "queued" "completed") 1
    [⟨"user", [⟨some ⟨"U"⟩⟩]⟩, ⟨"assistant", [⟨none⟩]⟩]
    (sample_created _ _ _) (sample_polled_one _ _ (by decide)) (by decide) rfl
    (by decide) (by decide)

theorem make_calls_mem {α : Type} (marshal : Payload → Except String String)
    (decode : String → α → Option String × α) (net : Exchange) (method url apiKey : String)
    (p : Option Payload) (responseBody : Option α) (hc : HttpCall)
    (hmem : hc ∈ (makeOpenAIRequest marshal decode net method url apiKey p responseBody).calls) :
    (∀ x, p.map marshal ≠ some (.error x)) ∧ hc = ⟨method, url, net⟩ := by
  unfold makeOpenAIRequest at hmem
  split at hmem
  · simp at hmem
  · next hne =>
    refine ⟨fun x hx => hne x hx, ?_⟩
    cases net with
    | requestFailed e => simpa using hmem
    | sendFailed e => simpa using hmem
    | answered c b =>
      simp only at hmem
      split at hmem
      · simpa using hmem
      · cases responseBody with
        | none => simpa using hmem
        | some t =>
          simp only at hmem
          split at hmem <;> simpa using hmem

theorem make_bad {α : Type} (marshal : Payload → Except String String)
    (decode : String → α → Option String × α) (net : Exchange) (method url apiKey : String)
    (p : Option Payload) (responseBody : Option α) (step : Step) (call : Call) (c : Int)
    (b : String)
    (hmem : call ∈ tag step
      (makeOpenAIRequest marshal decode net method url apiKey p responseBody).calls)
    (hout : call.2.outcome = .answered c b) (hr : c < 200 ∨ c ≥ 300) :
    (makeOpenAIRequest marshal decode net method url apiKey p responseBody).err
      = some ("api request failed with status " ++ toString c ++ ": " ++ b) := by
  simp only [tag, List.mem_map] at hmem
  obtain ⟨hc, hcmem, rfl⟩ := hmem
  obtain ⟨hm, rfl⟩ := make_calls_mem marshal decode net method url apiKey p responseBody hc hcmem
  simp only at hout
  subst hout
  unfold makeOpenAIRequest
  split
  · next e he => exact absurd he (hm e)
  · simp [hr]

theorem contains_code (label : String) (c : Int) (b : String) :
    Contains (label ++ ("api request failed with status " ++ toString c ++ ": " ++ b))
      (toString c) :=
  contains_append_right _ _ _
    (contains_append_left _ _ _ (contains_append_left _ _ _ (contains_end _ _)))

theorem pollRun_bad (w : World) (apiKey : String) (thread : Thread) (c : Int) (b : String)
    (hr : c < 200 ∨ c ≥ 300) :
    ∀ (fuel i : Nat) (run : Run) (res : Except APIGatewayProxyResponse Run) (calls : List Call),
      pollRun w apiKey thread fuel i run = some (res, calls) →
      ∀ call ∈ calls, call.2.outcome = .answered c b →
        ∃ resp, res = .error resp ∧ resp.StatusCode = 500 ∧ Contains resp.Body (toString c) := by
  intro fuel
  induction fuel with
  | zero =>
    intro i run res calls h call hmem hout
    simp only [pollRun] at h
    split at h
    · simp at h
    · simp only [Option.some.injEq, Prod.mk.injEq] at h
      rw [← h.2] at hmem
      simp at hmem
  | succ fuel ih =>
    intro i run res calls h call hmem hout
    simp only [pollRun] at h
    split at h
    · split at h
      · next err x calls1 heq =>
        simp only [Option.some.injEq, Prod.mk.injEq] at h
        obtain ⟨h1, h2⟩ := h
        subst h1 h2
        have e := make_bad w.marshal w.decodeRun (w.retrieveRun i) "GET" (runURL thread run)
          apiKey none (some run) Step.retrieveRun call c b (by rw [heq]; exact hmem) hout hr
        rw [heq] at e
        simp only [Option.some.injEq] at e
        subst e
        exact ⟨_, rfl, rfl, contains_code _ _ _⟩
      · next target calls1 heq =>
        split at h
        · simp at h
        · next res2 more hrec =>
          simp only [Option.some.injEq, Prod.mk.injEq] at h
          obtain ⟨h1, h2⟩ := h
          subst h1 h2
          rcases List.mem_append.mp hmem with hm | hm
          · have e := make_bad w.marshal w.decodeRun (w.retrieveRun i) "GET" (runURL thread run)
              apiKey none (some run) Step.retrieveRun call c b (by rw [heq]; exact hm) hout hr
            rw [heq] at e
            simp at e
          · exact ih _ _ _ _ hrec call hm hout
    · simp only [Option.some.injEq, Prod.mk.injEq] at h
      rw [← h.2] at hmem
      simp at hmem

theorem finish_bad (w : World) (apiKey : String) (thread : Thread) (run : Run)
    (sofar : List Call) (c : Int) (b : String) (hr : c < 200 ∨ c ≥ 300) (call : Call)
    (hmem : call ∈ (finish w apiKey thread run sofar).2)
    (hout : call.2.outcome = .answered c b) :
    call ∈ sofar ∨ ((finish w apiKey thread run sofar).1.StatusCode = 500 ∧
      Contains (finish w apiKey thread run sofar).1.Body (toString c)) := by
  by_cases hs : run.Status = "completed"
  · have hbad := make_bad w.marshal w.decodeMessages w.listMessages "GET"
      (openaiAPIBase ++ "/threads/" ++ thread.ID ++ "/messages") apiKey none
      (some (⟨[]⟩ : MessageList)) Step.listMessages call c b
    have hfin : finish w apiKey thread run sofar =
        match makeOpenAIRequest w.marshal w.decodeMessages w.listMessages "GET"
          (openaiAPIBase ++ "/threads/" ++ thread.ID ++ "/messages") apiKey none
          (some (⟨[]⟩ : MessageList)) with
        | ⟨some err, _, calls⟩ =>
          (⟨500, "Error listing messages: " ++ err⟩, sofar ++ tag .listMessages calls)
        | ⟨none, messages, calls⟩ =>
          (⟨200, assistantResponse (messages.getD ⟨[]⟩).Data⟩,
            sofar ++ tag .listMessages calls) := by
      simp [finish, hs]
    rw [hfin] at hmem ⊢
    generalize makeOpenAIRequest w.marshal w.decodeMessages w.listMessages "GET"
      (openaiAPIBase ++ "/threads/" ++ thread.ID ++ "/messages") apiKey none
      (some (⟨[]⟩ : MessageList)) = R at hbad hmem ⊢
    obtain ⟨err, rb, calls5⟩ := R
    cases err with
    | none =>
      simp only at hmem hbad
      rcases List.mem_append.mp hmem with hm | hm
      · exact Or.inl hm
      · have e := hbad hm hout hr
        simp at e
    | some e5 =>
      simp only at hmem hbad ⊢
      rcases List.mem_append.mp hmem with hm | hm
      · exact Or.inl hm
      · have e := hbad hm hout hr
        simp only [Option.some.injEq] at e
        subst e
        exact Or.inr ⟨trivial, contains_code _ _ _⟩
  · have hfin : finish w apiKey thread run sofar
        = (⟨500, "Run finished with status: " ++ run.Status⟩, sofar) := by
      simp [finish, hs]
    rw [hfin] at hmem
    exact Or.inl hmem

/-- In the orchestration handler, a round trip answered with a status outside
[200,300) ends the invocation with HTTP 500 and a body containing that status. -/
theorem handler_bad (fuel : Nat) (w : World) (request : APIGatewayProxyRequest)
    (resp : APIGatewayProxyResponse) (calls : List Call) (call : Call) (c : Int) (b : String)
    (h : handler fuel w request = some (resp, calls)) (hmem : call ∈ calls)
    (hout : call.2.outcome = .answered c b) (hr : c < 200 ∨ c ≥ 300) :
    resp.StatusCode = 500 ∧ Contains resp.Body (toString c) := by
  unfold handler at h
  simp only at h
  split at h
  · simp only [Option.some.injEq, Prod.mk.injEq] at h
    rw [← h.2] at hmem
    simp at hmem
  · split at h
    · simp only [Option.some.injEq, Prod.mk.injEq] at h
      rw [← h.2] at hmem
      simp at hmem
    · next reqBody hreq =>
      split at h
      · simp only [Option.some.injEq, Prod.mk.injEq] at h
        rw [← h.2] at hmem
        simp at hmem
      · split at h
        · next err x calls1 heq1 =>
          simp only [Option.some.injEq, Prod.mk.injEq] at h
          obtain ⟨h1, h2⟩ := h
          subst h1 h2
          have e := make_bad _ _ _ _ _ _ _ _ Step.createThread call c b
            (by rw [heq1]; exact hmem) hout hr
          rw [heq1] at e
          simp only [Option.some.injEq] at e
          subst e
          exact ⟨rfl, contains_code _ _ _⟩
        · next threadTarget calls1 heq1 =>
          have n1 : call ∉ tag Step.createThread calls1 := by
            intro hm
            have e := make_bad _ _ _ _ _ _ _ _ Step.createThread call c b
              (by rw [heq1]; exact hm) hout hr
            rw [heq1] at e
            simp at e
          split at h
          · next err x calls2 heq2 =>
            simp only [Option.some.injEq, Prod.mk.injEq] at h
            obtain ⟨h1, h2⟩ := h
            subst h1 h2
            rcases List.mem_append.mp hmem with hm | hm
            · exact absurd hm n1
            · have e := make_bad _ _ _ _ _ _ _ _ Step.addMessage call c b
                (by rw [heq2]; exact hm) hout hr
              rw [heq2] at e
              simp only [Option.some.injEq] at e
              subst e
              exact ⟨rfl, contains_code _ _ _⟩
          · next x2 calls2 heq2 =>
            have n2 : call ∉ tag Step.addMessage calls2 := by
              intro hm
              have e := make_bad _ _ _ _ _ _ _ _ Step.addMessage call c b
                (by rw [heq2]; exact hm) hout hr
              rw [heq2] at e
              simp at e
            split at h
            · next err x calls3 heq3 =>
              simp only [Option.some.injEq, Prod.mk.injEq] at h
              obtain ⟨h1, h2⟩ := h
              subst h1 h2
              rcases List.mem_append.mp hmem with hm | hm
              · rcases List.mem_append.mp hm with hm | hm
                · exact absurd hm n1
                · exact absurd hm n2
              · have e := make_bad _ _ _ _ _ _ _ _ Step.createRun call c b
                  (by rw [heq3]; exact hm) hout hr
                rw [heq3] at e
                simp only [Option.some.injEq] at e
                subst e
                exact ⟨rfl, contains_code _ _ _⟩
            · next runTarget calls3 heq3 =>
              have n3 : call ∉ tag Step.createRun calls3 := by
                intro hm
                have e := make_bad _ _ _ _ _ _ _ _ Step.createRun call c b
                  (by rw [heq3]; exact hm) hout hr
                rw [heq3] at e
                simp at e
              have nsofar : call ∉ tag Step.createThread calls1 ++ tag Step.addMessage calls2 ++
                  tag Step.createRun calls3 := by
                intro hm
                rcases List.mem_append.mp hm with hm | hm
                · rcases List.mem_append.mp hm with hm | hm
                  · exact absurd hm n1
                  · exact absurd hm n2
                · exact absurd hm n3
              split at h
              · simp at h
              · next resp2 polls hpoll =>
                simp only [Option.some.injEq, Prod.mk.injEq] at h
                obtain ⟨h1, h2⟩ := h
                subst h1 h2
                rcases List.mem_append.mp hmem with hm | hm
                · exact absurd hm nsofar
                · obtain ⟨resp3, hres, hstat, hbody⟩ :=
                    pollRun_bad w _ _ c b hr _ _ _ _ _ hpoll call hm hout
                  simp only [Except.error.injEq] at hres
                  subst hres
                  exact ⟨hstat, hbody⟩
              · next run polls hpoll =>
                simp only [Option.some.injEq] at h
                have npolls : call ∉ polls := by
                  intro hm
                  obtain ⟨resp3, hres, _, _⟩ :=
                    pollRun_bad w _ _ c b hr _ _ _ _ _ hpoll call hm hout
                  simp at hres
                have hf := finish_bad w _ _ run _ c b hr call (by rw [h]; exact hmem) hout
                rw [h] at hf
                rcases hf with hm | hf
                · rcases List.mem_append.mp hm with hm | hm
                  · exact absurd hm nsofar
                  · exact absurd hm npolls
                · exact hf

theorem make_out_of_range {α : Type} (marshal : Payload → Except String String)
    (decode : String → α → Option String × α) (method url apiKey : String)
    (p : Option Payload) (responseBody : Option α) (c : Int) (b : String)
    (hp : ∀ x, p = some x → ∃ j, marshal x = .ok j) (hr : c < 200 ∨ c ≥ 300) :
    makeOpenAIRequest marshal decode (.answered c b) method url apiKey p responseBody
      = ⟨some ("api request failed with status " ++ toString c ++ ": " ++ b), responseBody,
          [⟨method, url, .answered c b⟩]⟩ := by
  unfold makeOpenAIRequest
  cases p with
  | none => simp [hr]
  | some x =>
    obtain ⟨j, hj⟩ := hp x rfl
    simp [hj, hr]

theorem pollRun_fails (w : World) (apiKey : String) (thread : Thread) (c : Int) (b : String)
    (hr : c < 200 ∨ c ≥ 300) :
    ∀ (n fuel i : Nat) (r : Nat → Run),
      (∀ j, j < n → Succeeds w.decodeRun (w.retrieveRun (i + j)) (r j) (r (j + 1))) →
      (∀ j, j ≤ n → polling (r j).Status) → w.retrieveRun (i + n) = .answered c b →
      n < fuel →
      ∃ calls, pollRun w apiKey thread fuel i (r 0)
        = some (.error ⟨500, "Error retrieving run: " ++
            ("api request failed with status " ++ toString c ++ ": " ++ b)⟩, calls) := by
  intro n
  induction n with
  | zero =>
    intro fuel i r _ hwait hnet hfuel
    cases fuel with
    | zero => omega
    | succ fuel =>
      have hw0 := hwait 0 (by omega)
      simp only [Nat.add_zero] at hnet
      have hmk := make_out_of_range w.marshal w.decodeRun "GET" (runURL thread (r 0)) apiKey
        none (some (r 0)) c b (by simp) hr
      simp only [pollRun, hw0, if_true, hnet, hmk]
      exact ⟨_, rfl⟩
  | succ n ih =>
    intro fuel i r hfetch hwait hnet hfuel
    cases fuel with
    | zero => omega
    | succ fuel =>
      have h0 := hfetch 0 (by omega)
      have hw0 := hwait 0 (by omega)
      have hmk := make_succeeds w.marshal w.decodeRun (w.retrieveRun i) "GET"
        (runURL thread (r 0)) apiKey none (r 0) (r 1) (by simp) (by simpa using h0)
      obtain ⟨calls, hrec⟩ := ih fuel (i + 1) (fun j => r (j + 1))
        (by intro j hj; have := hfetch (j + 1) (by omega); simpa [Nat.add_assoc, Nat.add_comm 1 j] using this)
        (by intro j hj; exact hwait (j + 1) (by omega))
        (by rw [← hnet]; congr 1; omega) (by omega)
      simp only [pollRun, hw0, if_true, hmk, Option.getD_some]
      simp only [Nat.zero_add] at hrec
      rw [hrec]
      exact ⟨_, rfl⟩

/-- When the handler reaches a backend call that is answered with a status
outside [200,300), it returns (given enough loop iterations) HTTP 500 with a
body containing that status. -/
theorem handler_fails_at (fuel need : Nat) (w : World) (request : APIGatewayProxyRequest)
    (c : Int) (b : String) (hfail : FailsAt w request c b need) (hr : c < 200 ∨ c ≥ 300)
    (hfuel : need ≤ fuel) :
    ∃ resp calls, handler fuel w request = some (resp, calls) ∧
      resp.StatusCode = 500 ∧ Contains resp.Body (toString c) := by
  cases hfail with
  | createThread q hkey hq hqne hnet =>
    have h1 := make_out_of_range w.marshal w.decodeThread "POST" (openaiAPIBase ++ "/threads")
      w.OPENAI_API_KEY none (some (⟨""⟩ : Thread)) c b (by simp) hr
    have hh : ∃ calls, handler fuel w request = some (⟨500, "Error creating thread: " ++
        ("api request failed with status " ++ toString c ++ ": " ++ b)⟩, calls) := by
      simp only [handler, hkey, if_false, hq, hqne, hnet, h1]
      exact ⟨_, rfl⟩
    obtain ⟨calls, hh⟩ := hh
    exact ⟨_, calls, hh, rfl, contains_code "Error creating thread: " c b⟩
  | addMessage q thread j hkey hq hqne hthread hmq hnet =>
    have h1 := make_succeeds w.marshal w.decodeThread w.createThread "POST"
      (openaiAPIBase ++ "/threads") w.OPENAI_API_KEY none ⟨""⟩ thread (by simp) hthread
    have h2 := make_out_of_range w.marshal (fun _ (u : Unit) => (none, u)) "POST"
      (openaiAPIBase ++ "/threads/" ++ thread.ID ++ "/messages") w.OPENAI_API_KEY
      (some (.message ⟨"user", q⟩)) none c b (by intro x hx; cases hx; exact ⟨j, hmq⟩) hr
    have hh : ∃ calls, handler fuel w request = some (⟨500, "Error creating message: " ++
        ("api request failed with status " ++ toString c ++ ": " ++ b)⟩, calls) := by
      simp only [handler, hkey, if_false, hq, hqne, h1, Option.getD_some, hnet, h2]
      exact ⟨_, rfl⟩
    obtain ⟨calls, hh⟩ := hh
    exact ⟨_, calls, hh, rfl, contains_code "Error creating message: " c b⟩
  | createRun q thread j j2 hkey hq hqne hthread hmq hmsg hmr hnet =>
    have h1 := make_succeeds w.marshal w.decodeThread w.createThread "POST"
      (openaiAPIBase ++ "/threads") w.OPENAI_API_KEY none ⟨""⟩ thread (by simp) hthread
    have h2 := make_accepted w.marshal (fun _ (u : Unit) => (none, u)) w.addMessage "POST"
      (openaiAPIBase ++ "/threads/" ++ thread.ID ++ "/messages") w.OPENAI_API_KEY
      (some (.message ⟨"user", q⟩)) (by intro x hx; cases hx; exact ⟨j, hmq⟩) hmsg
    have h3 := make_out_of_range w.marshal w.decodeRun "POST"
      (openaiAPIBase ++ "/threads/" ++ thread.ID ++ "/runs") w.OPENAI_API_KEY
      (some (.run ⟨assistantID⟩)) (some (⟨"", ""⟩ : Run)) c b
      (by intro x hx; cases hx; exact ⟨j2, hmr⟩) hr
    have hh : ∃ calls, handler fuel w request = some (⟨500, "Error creating run: " ++
        ("api request failed with status " ++ toString c ++ ": " ++ b)⟩, calls) := by
      simp only [handler, hkey, if_false, hq, hqne, h1, Option.getD_some, h2, hnet, h3]
      exact ⟨_, rfl⟩
    obtain ⟨calls, hh⟩ := hh
    exact ⟨_, calls, hh, rfl, contains_code "Error creating run: " c b⟩
  | retrieveRun thread r n hc hfetch hwait hnet =>
    obtain ⟨q, hq, hqne, hmq⟩ := hc.query
    have h1 := make_succeeds w.marshal w.decodeThread w.createThread "POST"
      (openaiAPIBase ++ "/threads") w.OPENAI_API_KEY none ⟨""⟩ thread (by simp) hc.thread
    have h2 := make_accepted w.marshal (fun _ (u : Unit) => (none, u)) w.addMessage "POST"
      (openaiAPIBase ++ "/threads/" ++ thread.ID ++ "/messages") w.OPENAI_API_KEY
      (some (.message ⟨"user", q⟩)) (by intro x hx; cases hx; exact hmq) hc.message
    have h3 := make_succeeds w.marshal w.decodeRun w.createRun "POST"
      (openaiAPIBase ++ "/threads/" ++ thread.ID ++ "/runs") w.OPENAI_API_KEY
      (some (.run ⟨assistantID⟩)) ⟨"", ""⟩ (r 0) (by intro x hx; cases hx; exact hc.runReq) hc.run
    obtain ⟨calls, h4⟩ := pollRun_fails w w.OPENAI_API_KEY thread c b hr n fuel 0 r
      (by intro j hj; simpa using hfetch j hj) hwait (by simpa using hnet) (by omega)
    have hh : ∃ calls, handler fuel w request = some (⟨500, "Error retrieving run: " ++
        ("api request failed with status " ++ toString c ++ ": " ++ b)⟩, calls) := by
      simp only [handler, hc.key, if_false, hq, hqne, h1, Option.getD_some, h2, h3, h4]
      exact ⟨_, rfl⟩
    obtain ⟨calls, hh⟩ := hh
    exact ⟨_, calls, hh, rfl, contains_code "Error retrieving run: " c b⟩
  | listMessages thread r n hc hp hdone hnet =>
    have h5 := make_out_of_range w.marshal w.decodeMessages "GET"
      (openaiAPIBase ++ "/threads/" ++ thread.ID ++ "/messages") w.OPENAI_API_KEY none
      (some (⟨[]⟩ : MessageList)) c b (by simp) hr
    have hfin : finish w w.OPENAI_API_KEY thread (r need)
        (setupCalls w thread ++ pollCalls w thread r 0 need)
        = (⟨500, "Error listing messages: " ++
            ("api request failed with status " ++ toString c ++ ": " ++ b)⟩,
          setupCalls w thread ++ pollCalls w thread r 0 need ++
            tag .listMessages [⟨"GET", openaiAPIBase ++ "/threads/" ++ thread.ID ++ "/messages",
              .answered c b⟩]) := by
      simp [finish, hdone, hnet, h5]
    have hh := handler_polled fuel w request thread r need hc hp hfuel
    rw [hfin] at hh
    exact ⟨_, _, hh, rfl, contains_code "Error listing messages: " c b⟩

/-- C5. `makeOpenAIRequest`, for a request that was sent (its payload, if any,
marshalled) and answered with status code `c` and raw body `b`, where the body
decodes when a response value is expected: an error is returned if and only if
`c < 200` or `c >= 300`; in that case the error is the API error, whose message
contains the decimal rendering of `c` and the raw body `b`, and the value
behind `responseBody` is left as it was. -/
theorem makeOpenAIRequest_api_error {α : Type} (marshal : Payload → Except String String)
    (decode : String → α → Option String × α) (method url apiKey : String)
    (requestBodyData : Option Payload) (responseBody : Option α) (c : Int) (b : String)
    (hsent : ∀ p, requestBodyData = some p → ∃ j, marshal p = .ok j)
    (hdec : ∀ t, responseBody = some t → (decode b t).1 = none) :
    ((makeOpenAIRequest marshal decode (.answered c b) method url apiKey requestBodyData
        responseBody).err ≠ none ↔ (c < 200 ∨ c ≥ 300)) ∧
    ((c < 200 ∨ c ≥ 300) →
      (makeOpenAIRequest marshal decode (.answered c b) method url apiKey requestBodyData
          responseBody).responseBody = responseBody ∧
      ∃ msg, (makeOpenAIRequest marshal decode (.answered c b) method url apiKey requestBodyData
          responseBody).err = some msg ∧
        msg = "api request failed with status " ++ toString c ++ ": " ++ b ∧
        Contains msg (toString c) ∧ Contains msg b) := by
  have hm : ∀ x, requestBodyData.map marshal ≠ some (.error x) := by
    intro x hx
    cases requestBodyData with
    | none => simp at hx
    | some p =>
      obtain ⟨j, hj⟩ := hsent p rfl
      simp [hj] at hx
  have hout : (c < 200 ∨ c ≥ 300) →
      makeOpenAIRequest marshal decode (.answered c b) method url apiKey requestBodyData
        responseBody
        = ⟨some ("api request failed with status " ++ toString c ++ ": " ++ b), responseBody,
            [⟨method, url, .answered c b⟩]⟩ := by
    intro hc
    unfold makeOpenAIRequest
    split
    · next e he => exact absurd he (hm e)
    · simp [hc]
  have hin : ¬ (c < 200 ∨ c ≥ 300) →
      (makeOpenAIRequest marshal decode (.answered c b) method url apiKey requestBodyData
        responseBody).err = none := by
    intro hc
    unfold makeOpenAIRequest
    split
    · next e he => exact absurd he (hm e)
    · simp only [hc, if_false]
      cases responseBody with
      | none => rfl
      | some t =>
        have h := hdec t rfl
        simp only
        split
        · next e t2 heq => rw [heq] at h; simp at h
        · rfl
  refine ⟨?_, ?_⟩
  · constructor
    · intro h
      by_contra hc
      exact h (hin hc)
    · intro hc
      rw [hout hc]
      simp
  · intro hc
    rw [hout hc]
    refine ⟨rfl, _, rfl, rfl, ?_, ?_⟩
    · exact contains_append_left _ _ _ (contains_append_left _ _ _ (contains_end _ _))
    · exact contains_end _ _

theorem makeOpenAIRequest_api_error_witness :
    ((makeOpenAIRequest (sampleWorld "" "" []).marshal (sampleWorld "" "" []).decodeRun
        (.answered 404 "nf") "GET" "u" "k" (some (.run ⟨assistantID⟩))
        (some (⟨"r0", "queued"⟩ : Run))).err ≠ none ↔ ((404 : Int) < 200 ∨ (404 : Int) ≥ 300)) ∧
    (((404 : Int) < 200 ∨ (404 : Int) ≥ 300) →
      (makeOpenAIRequest (sampleWorld "" "" []).marshal (sampleWorld "" "" []).decodeRun
          (.answered 404 "nf") "GET" "u" "k" (some (.run ⟨assistantID⟩))
          (some (⟨"r0", "queued"⟩ : Run))).responseBody = some ⟨"r0", "queued"⟩ ∧
      ∃ msg, (makeOpenAIRequest (sampleWorld "" "" []).marshal (sampleWorld "" "" []).decodeRun
          (.answered 404 "nf") "GET" "u" "k" (some (.run ⟨assistantID⟩))
          (some (⟨"r0", "queued"⟩ : Run))).err = some msg ∧
        msg = "api request failed with status " ++ toString (404 : Int) ++ ": " ++ "nf" ∧
        Contains msg (toString (404 : Int)) ∧ Contains msg "nf") :=
  makeOpenAIRequest_api_error (sampleWorld "" "" []).marshal (sampleWorld "" "" []).decodeRun
    "GET" "u" "k" (some (.run ⟨assistantID⟩)) (some (⟨"r0", "queued"⟩ : Run)) 404 "nf"
    (fun _ _ => ⟨"json", rfl⟩) (fun _ _ => rfl)

end MusicNER

namespace Search

theorem foldl_append_toList (hits : List Song) :
    ∀ acc : Slice Track,
      (hits.foldl (fun tracks song => tracks.append (trackOf song)) acc).toList
        = acc.toList ++ hits.map trackOf := by
  induction hits with
  | nil => intro acc; simp
  | cons x xs ih =>
    intro acc
    simp only [List.foldl_cons, List.map_cons]
    rw [ih]
    simp [Slice.append, Slice.toList]

theorem mapTracks_toList (hits : List Song) : (mapTracks hits).toList = hits.map trackOf := by
  unfold mapTracks
  rw [foldl_append_toList]
  simp [Slice.toList]

/-- C7.  The track list produced by the mapping loop has the length of the hit
list, and its `i`-th track is built from the `i`-th hit: id, title = name,
artist = artistName, album = albumName, artwork URL and duration copied, the
preview URL empty when the hit has no preview and the URL of its first preview
otherwise.  The order of the hits is kept. -/
theorem mapTracks_pointwise (hits : List Song) :
    (mapTracks hits).toList.length = hits.length ∧
    ∀ (i : Nat) (song : Song), hits[i]? = some song →
      ∃ t, (mapTracks hits).toList[i]? = some t ∧
        t.ID = song.ID ∧ t.Title = song.Attributes.Name ∧
        t.Artist = song.Attributes.ArtistName ∧ t.Album = song.Attributes.AlbumName ∧
        t.ArtworkURL = song.Attributes.Artwork.URL ∧
        t.Duration = song.Attributes.DurationInMillis ∧
        (song.Attributes.Previews = [] → t.PreviewURL = "") ∧
        (∀ p ps, song.Attributes.Previews = p :: ps → t.PreviewURL = p.URL) := by
  rw [mapTracks_toList]
  refine ⟨by simp, ?_⟩
  intro i song hi
  refine ⟨trackOf song, by simp [hi], rfl, rfl, rfl, rfl, rfl, rfl, ?_, ?_⟩
  · intro h
    simp [trackOf, h]
  · intro p ps h
    simp [trackOf, h]

theorem mapTracks_pointwise_witness :
    (mapTracks sampleHits).toList.length = 2 ∧
    ∃ t, (mapTracks sampleHits).toList[1]? = some t ∧ t.ID = "2" ∧ t.PreviewURL = "" :=
  ⟨(mapTracks_pointwise sampleHits).1,
    match (mapTracks_pointwise sampleHits).2 1
      ⟨"2", ⟨"N2", "A2", "L2", 2000, ⟨"art2"⟩, []⟩⟩ rfl with
    | ⟨t, ht, hid, _, _, _, _, _, hp, _⟩ => ⟨t, ht, hid, hp rfl⟩⟩

/-- The expiry claim is the issued-at claim plus 3600 seconds plus the number
of second boundaries crossed between the two clock readings. -/
theorem mintToken_exp (TEAM_ID KEY_ID : String) (clock : Nat → Time) :
    (mintToken TEAM_ID KEY_ID clock).Claims.exp
      = (mintToken TEAM_ID KEY_ID clock).Claims.iat + 3600
        + ((clock 1).Unix - (clock 0).Unix) := by
  simp only [mintToken, NewWithClaims, Token.setHeader, Time.Unix, Time.Add, Hour]
  omega

/-- C6 fails on the code.  The two claims come from two separate clock
readings: with the first reading at 0.999999999 s and the second, not earlier,
at 1.000000000 s, the minted token has `iat = 0` and `exp = 3601`, that is
`iat + 3601`, and this is the token the handler signs and sends. -/
theorem mintToken_two_clock_reads :
    (999999999 : Int) ≤ 1000000000 ∧
    (mintToken "team1" "kid1" (sampleWorld (.answered 200 "") [] 999999999 1000000000).clock).Claims.iat
      = 0 ∧
    (mintToken "team1" "kid1" (sampleWorld (.answered 200 "") [] 999999999 1000000000).clock).Claims.exp
      = 3601 ∧
    (handler (sampleWorld (.answered 200 "") [] 999999999 1000000000) ⟨[("term", "x")], ""⟩).2.map
      (fun c => c.authorization) = ["Bearer 0.3601"] :=
  ⟨by decide, by decide, by decide, by decide⟩

/-- C8 fails on the code.  When the catalog answers 200 with zero hits the
track slice is still the nil slice when it is marshalled, so the handler
returns status 200 and Content-Type application/json with the body `null`,
which is not the empty array `[]`. -/
theorem handler_zero_hits_null :
    (handler (sampleWorld (.answered 200 "") [] 0 0) ⟨[("term", "zzz")], ""⟩).1
      = ⟨200, [("Content-Type", "application/json")], "null"⟩ ∧
    (handler (sampleWorld (.answered 200 "") [] 0 0) ⟨[("term", "zzz")], ""⟩).1.Body ≠ "[]" :=
  ⟨by decide, by decide⟩

/-- With zero hits the body is `null` whatever the environment, as soon as the
catalog call is answered 200 and its body decodes. -/
theorem handler_zero_hits {Key : Type} (w : World Key) (request : APIGatewayV2HTTPRequest)
    (block : Key) (tokenString body : String) (amResp : AppleMusicResponse)
    (hcfg : ¬ (w.APPLE_MUSIC_PRIVATE_KEY = "" ∨ w.APPLE_MUSIC_KEY_ID = "" ∨
      w.APPLE_MUSIC_TEAM_ID = ""))
    (hkey : w.ParseECPrivateKeyFromPEM w.APPLE_MUSIC_PRIVATE_KEY = .ok block)
    (hsign : w.SignedString (mintToken w.APPLE_MUSIC_TEAM_ID w.APPLE_MUSIC_KEY_ID w.clock) block
      = .ok tokenString)
    (hnet : w.net = .answered 200 body) (hread : w.readAllErr = none)
    (hdec : w.unmarshal body ⟨⟨⟨[]⟩⟩⟩ = (none, amResp))
    (hzero : amResp.Results.Songs.Data = []) :
    (handler w request).1 = ⟨200, [("Content-Type", "application/json")], "null"⟩ := by
  simp [handler, hcfg, hkey, hsign, hnet, hread, hdec, hzero, mapTracks, jsonMarshal]

/-- Every invocation of `client.Do` by the search handler is the catalog round
trip, and it happens only after the token has been signed. -/
theorem handler_call_mem {Key : Type} (w : World Key) (request : APIGatewayV2HTTPRequest)
    (call : Call) (hmem : call ∈ (handler w request).2) :
    call.outcome = w.net ∧
    ∃ block tokenString,
      ¬ (w.APPLE_MUSIC_PRIVATE_KEY = "" ∨ w.APPLE_MUSIC_KEY_ID = "" ∨
        w.APPLE_MUSIC_TEAM_ID = "") ∧
      w.ParseECPrivateKeyFromPEM w.APPLE_MUSIC_PRIVATE_KEY = .ok block ∧
      w.SignedString (mintToken w.APPLE_MUSIC_TEAM_ID w.APPLE_MUSIC_KEY_ID w.clock) block
        = .ok tokenString := by
  unfold handler at hmem
  simp only at hmem
  split at hmem
  · simp at hmem
  · next hcfg =>
    split at hmem
    · simp at hmem
    · next block hkey =>
      split at hmem
      · simp at hmem
      · next tokenString hsign =>
        refine ⟨?_, block, tokenString, hcfg, hkey, hsign⟩
        split at hmem
        · simp at hmem
        · simp only [List.mem_singleton] at hmem
          rw [hmem]
        · split at hmem
          · simp only [List.mem_singleton] at hmem
            rw [hmem]
          · split at hmem
            · simp only [List.mem_singleton] at hmem
              rw [hmem]
            · split at hmem
              · simp only [List.mem_singleton] at hmem
                rw [hmem]
              · split at hmem <;>
                · simp only [List.mem_singleton] at hmem
                  rw [hmem]

/-- In the search handler, a catalog answer with any status other than 200
whose body is read is passed through: same status, same body. -/
theorem handler_passthrough {Key : Type} (w : World Key) (request : APIGatewayV2HTTPRequest)
    (call : Call) (c : Int) (b : String) (hmem : call ∈ (handler w request).2)
    (hout : call.outcome = .answered c b) (hread : w.readAllErr = none) (hc : c ≠ 200) :
    (handler w request).1 = ⟨c, [], b⟩ := by
  obtain ⟨hnet, block, tokenString, hcfg, hkey, hsign⟩ := handler_call_mem w request call hmem
  rw [hout] at hnet
  simp [handler, hcfg, hkey, hsign, ← hnet, hread, hc]

/-- In the search handler, an absent or empty `term` is replaced by the request
body, and the catalog call is issued once the token is signed and the request
is created. -/
theorem handler_term_fallback {Key : Type} (w : World Key) (request : APIGatewayV2HTTPRequest)
    (block : Key) (tokenString : String)
    (hcfg : ¬ (w.APPLE_MUSIC_PRIVATE_KEY = "" ∨ w.APPLE_MUSIC_KEY_ID = "" ∨
      w.APPLE_MUSIC_TEAM_ID = ""))
    (hkey : w.ParseECPrivateKeyFromPEM w.APPLE_MUSIC_PRIVATE_KEY = .ok block)
    (hsign : w.SignedString (mintToken w.APPLE_MUSIC_TEAM_ID w.APPLE_MUSIC_KEY_ID w.clock) block
      = .ok tokenString)
    (hnet : ∀ e, w.net ≠ .requestFailed e)
    (hterm : mapIndex request.QueryStringParameters "term" = "") :
    (handler w request).2 = [⟨"GET", "https://api.music.apple.com/v1/catalog/us/search" ++ "?" ++
      w.Encode [("term", request.Body), ("types", "songs"), ("limit", "5")],
      "Bearer " ++ tokenString, w.net⟩] := by
  unfold handler
  simp only [hcfg, if_false, hkey, hsign, hterm, if_true]
  split
  · next e he => exact absurd he (hnet e)
  · rfl
  · split
    · rfl
    · split
      · rfl
      · split
        · rfl
        · split <;> rfl

end Search

namespace PleasePlay

/-- C4, as stated, fails for the search entry point: a catalog answer 404 with
body "nf" makes the search handler return status 404, not 500, with the body
"nf", which does not contain the upstream status code. -/
theorem search_non_2xx_counterexample :
    (Search.handler (Search.sampleWorld (.answered 404 "nf") [] 0 0) ⟨[("term", "x")], ""⟩).2.map
      (fun c => c.outcome) = [.answered 404 "nf"] ∧
    (Search.handler (Search.sampleWorld (.answered 404 "nf") [] 0 0) ⟨[("term", "x")], ""⟩).1
      = ⟨404, [], "nf"⟩ ∧
    ¬ Contains "nf" (toString (404 : Int)) :=
  ⟨by decide, by decide, by decide⟩

/-- C4, amended.  Orchestration handler: whenever it reaches a backend call
(thread creation, message posting, run creation, a status fetch, message
listing) that is answered with a status outside [200,300), the invocation
returns HTTP 500 and the response body contains the upstream status code; and
in every returned invocation, any call in the trace answered with such a status
gives that outcome.  Search handler: whenever the catalog call is answered with
a status other than 200 and the body is read, the invocation returns that
upstream status with the upstream body unchanged. -/
theorem non_2xx_responses (fuel need : Nat) (w : MusicNER.World)
    (request : MusicNER.APIGatewayProxyRequest) (c : Int) (b : String)
    (fuel2 : Nat) (w2 : MusicNER.World) (request2 : MusicNER.APIGatewayProxyRequest)
    (resp2 : MusicNER.APIGatewayProxyResponse) (calls2 : List MusicNER.Call)
    (call2 : MusicNER.Call) (c2 : Int) (b2 : String)
    {Key : Type} (sw : Search.World Key) (srequest : Search.APIGatewayV2HTTPRequest)
    (scall : Search.Call) (sc : Int) (sb : String)
    (hfail : MusicNER.FailsAt w request c b need) (hr : c < 200 ∨ c ≥ 300)
    (hfuel : need ≤ fuel)
    (h2 : MusicNER.handler fuel2 w2 request2 = some (resp2, calls2)) (hmem2 : call2 ∈ calls2)
    (hout2 : call2.2.outcome = .answered c2 b2) (hr2 : c2 < 200 ∨ c2 ≥ 300)
    (hsmem : scall ∈ (Search.handler sw srequest).2)
    (hsout : scall.outcome = .answered sc sb) (hread : sw.readAllErr = none)
    (hsc : sc ≠ 200) :
    (∃ resp calls, MusicNER.handler fuel w request = some (resp, calls) ∧
      resp.StatusCode = 500 ∧ Contains resp.Body (toString c)) ∧
    (resp2.StatusCode = 500 ∧ Contains resp2.Body (toString c2)) ∧
    (Search.handler sw srequest).1 = ⟨sc, [], sb⟩ :=
  ⟨MusicNER.handler_fails_at fuel need w request c b hfail hr hfuel,
    MusicNER.handler_bad fuel2 w2 request2 resp2 calls2 call2 c2 b2 h2 hmem2 hout2 hr2,
    Search.handler_passthrough sw srequest scall sc sb hsmem hsout hread hsc⟩

theorem non_2xx_responses_witness :
    MusicNER.FailsAt MusicNER.failingWorld ⟨"hello"⟩ 503 "down" 0 ∧
    (∃ resp calls, MusicNER.handler 0 MusicNER.failingWorld ⟨"hello"⟩ = some (resp, calls) ∧
      resp.StatusCode = 500 ∧ Contains resp.Body (toString (503 : Int))) ∧
    ((⟨500, "Error creating thread: api request failed with status 503: down"⟩ :
        MusicNER.APIGatewayProxyResponse).StatusCode = 500 ∧
      Contains "Error creating thread: api request failed with status 503: down"
        (toString (503 : Int))) ∧
    (Search.handler (Search.sampleWorld (.answered 404 "nf") [] 0 0) ⟨[("term", "x")], ""⟩).1
      = ⟨404, [], "nf"⟩ :=
  ⟨.createThread "hello" (by decide) rfl (by decide) rfl,
    non_2xx_responses 0 0 MusicNER.failingWorld ⟨"hello"⟩ 503 "down"
      0 MusicNER.failingWorld ⟨"hello"⟩
      ⟨500, "Error creating thread: api request failed with status 503: down"⟩
      [(.createThread, ⟨"POST", "https://api.openai.com/v1/threads", .answered 503 "down"⟩)]
      (.createThread, ⟨"POST", "https://api.openai.com/v1/threads", .answered 503 "down"⟩)
      503 "down"
      (Search.sampleWorld (.answered 404 "nf") [] 0 0) ⟨[("term", "x")], ""⟩
      ⟨"GET", "https://api.music.apple.com/v1/catalog/us/search?term=x&types=songs&limit=5",
        "Bearer 0.3600", .answered 404 "nf"⟩ 404 "nf"
      (.createThread "hello" (by decide) rfl (by decide) rfl) (by decide) (by decide)
      (by decide) (by decide) rfl (by decide) (by decide) rfl rfl (by decide)⟩

/-- C9, as stated, fails for the search entry point: with the configuration
present and no `term` parameter, the search handler does not return 400; it
takes the request body as the term, issues the catalog call and returns 200. -/
theorem search_missing_term_counterexample :
    Search.mapIndex [] "term" = "" ∧
    (Search.handler (Search.sampleWorld (.answered 200 "") [] 0 0) ⟨[], "b"⟩).1.StatusCode
      = 200 ∧
    (Search.handler (Search.sampleWorld (.answered 200 "") [] 0 0) ⟨[], "b"⟩).2.map
      (fun c => c.url)
      = ["https://api.music.apple.com/v1/catalog/us/search?term=b&types=songs&limit=5"] :=
  ⟨by decide, by decide, by decide⟩

/-- C9, amended.  Orchestration handler, with the API key present: a body that
does not decode, or whose query is empty or absent, yields HTTP 400 and no
backend call.  Search handler, with the configuration present: an absent or
empty `term` is not rejected; the request body is used as the term and, once
the key is parsed, the token signed and the request created, the catalog call
is issued with it. -/
theorem missing_input (fuel : Nat) (w : MusicNER.World)
    (request : MusicNER.APIGatewayProxyRequest)
    {Key : Type} (sw : Search.World Key) (srequest : Search.APIGatewayV2HTTPRequest)
    (block : Key) (tokenString : String)
    (hkey : w.OPENAI_API_KEY ≠ "")
    (hbad : (w.unmarshalRequest request.Body ⟨""⟩).1 ≠ none ∨
      (w.unmarshalRequest request.Body ⟨""⟩).2.Query = "")
    (hcfg : ¬ (sw.APPLE_MUSIC_PRIVATE_KEY = "" ∨ sw.APPLE_MUSIC_KEY_ID = "" ∨
      sw.APPLE_MUSIC_TEAM_ID = ""))
    (hparse : sw.ParseECPrivateKeyFromPEM sw.APPLE_MUSIC_PRIVATE_KEY = .ok block)
    (hsign : sw.SignedString
      (Search.mintToken sw.APPLE_MUSIC_TEAM_ID sw.APPLE_MUSIC_KEY_ID sw.clock) block
      = .ok tokenString)
    (hnet : ∀ e, sw.net ≠ .requestFailed e)
    (hterm : Search.mapIndex srequest.QueryStringParameters "term" = "") :
    (∃ resp, MusicNER.handler fuel w request = some (resp, []) ∧ resp.StatusCode = 400) ∧
    (Search.handler sw srequest).2 =
      [⟨"GET", "https://api.music.apple.com/v1/catalog/us/search" ++ "?" ++
        sw.Encode [("term", srequest.Body), ("types", "songs"), ("limit", "5")],
        "Bearer " ++ tokenString, sw.net⟩] := by
  refine ⟨?_, Search.handler_term_fallback sw srequest block tokenString hcfg hparse hsign
    hnet hterm⟩
  unfold MusicNER.handler
  simp only [hkey, if_false]
  split
  · exact ⟨_, rfl, rfl⟩
  · next reqBody hreq =>
    rw [hreq] at hbad
    simp only [ne_eq, not_true_eq_false, false_or] at hbad
    simp only [hbad, if_true]
    exact ⟨_, rfl, rfl⟩

theorem missing_input_witness :
    (∃ resp, MusicNER.handler 0 (MusicNER.sampleWorld "queued" "completed" []) ⟨""⟩
      = some (resp, []) ∧ resp.StatusCode = 400) ∧
    (Search.handler (Search.sampleWorld (.answered 200 "") [] 0 0) ⟨[("q", "x")], "b"⟩).2 =
      [⟨"GET", "https://api.music.apple.com/v1/catalog/us/search" ++ "?" ++
        (Search.sampleWorld (.answered 200 "") [] 0 0).Encode
          [("term", "b"), ("types", "songs"), ("limit", "5")],
        "Bearer " ++ "0.3600", .answered 200 ""⟩] :=
  missing_input 0 (MusicNER.sampleWorld "queued" "completed" []) ⟨""⟩
    (Search.sampleWorld (.answered 200 "") [] 0 0) ⟨[("q", "x")], "b"⟩ () "0.3600"
    (by decide) (Or.inr rfl) (by decide) rfl rfl (by intro e h; cases h) (by decide)

end PleasePlay
